import Mathlib

/- Shallow embedding of the argot-ts argument parser (src/arg_parser.ts,
src/utils.ts, src/types.ts).  Option schemas, the schema validator and the
parsing engine are translated into executable Lean definitions; machine
strings are Lean strings, JavaScript `Number()` coercion is modelled on the
string shapes the parser meets, and thrown errors become `Except` errors. -/

/-- A parsed option value (types.ts `OptionValue`):
boolean, string, number or array of strings. -/
inductive OptionValue where
  | bool (b : Bool)
  | str (s : String)
  | num (n : Int)
  | list (xs : List String)
deriving Repr, DecidableEq

/-- A schema config entry (types.ts `ConfigEntry`): a tagged variant over the
six supported option types, with the per-type optional fields. -/
inductive ConfigEntry where
  | flag
  | text (d : Option String)
  | int (d : Option Int)
  | count
  | list (sep : Option String)
  | alias (target : String)
deriving Repr, DecidableEq

/-- Errors thrown by the parser and validator, carrying the data the source
passes to the corresponding error constructors (errors.ts classes at their
call sites; TypeError for the frozen-container guards). -/
inductive ParseError where
  | nullArg (name : String) (target : Option String)
  | nullInt (name : String) (target : Option String)
  | invalidInt (value : String)
  | unsupportedType (tag : String)
  | lookupFailed (name : String)
  | danglingTarget (name : String) (target : String)
  | typeError (msg : String)
deriving Repr, DecidableEq

/-- A schema: the `Record<string, ConfigEntry>` of option name to entry,
as an insertion-ordered association list (JS object key order). -/
abbrev Schema := List (String × ConfigEntry)

/-- Property lookup `configs[name]` on the schema record. -/
def lookupEntry (cfg : Schema) (name : String) : Option ConfigEntry :=
  (cfg.find? (fun p => p.1 == name)).map (fun p => p.2)

/-- `Object.hasOwn(entries, name)` on the schema record. -/
def hasKey (cfg : Schema) (name : String) : Bool :=
  cfg.any (fun p => p.1 == name)

/-- Key update with JS `Map.set` / object-assignment semantics: an existing
key keeps its position and gets the new value, a new key is appended. -/
def setPairG {V : Type} (ps : List (String × V)) (k : String) (v : V) :
    List (String × V) :=
  match ps with
  | [] => [(k, v)]
  | (k', v') :: rest =>
    if k' = k then (k, v) :: rest else (k', v') :: setPairG rest k v

/-- Key lookup on an association list (JS `Map.get` / property read). -/
def getPairG {V : Type} (ps : List (String × V)) (k : String) : Option V :=
  (ps.find? (fun p => p.1 == k)).map (fun p => p.2)

/-- Accumulate decimal digits; any non-digit character means
not-a-number. -/
def digitsAux : List Char → Nat → Option Nat
  | [], acc => some acc
  | c :: rest, acc =>
    if c.isDigit then digitsAux rest (acc * 10 + (c.toNat - 48)) else none

/-- A non-empty all-digit character run as a number, `none` otherwise. -/
def parseDigits : List Char → Option Nat
  | [] => none
  | cs => digitsAux cs 0

/-- Model of JavaScript `Number()` string coercion restricted to the string
shapes this development evaluates it on: the empty string coerces to `0`
(it is not NaN), optionally signed decimal digit strings coerce to their
value, and all other strings are treated as NaN (`none`). -/
def jsNumber (s : String) : Option Int :=
  if s = "" then some 0
  else
    match s.data with
    | '-' :: cs => (parseDigits cs).map (fun n => -(n : Int))
    | '+' :: cs => (parseDigits cs).map (fun n => (n : Int))
    | cs => (parseDigits cs).map (fun n => (n : Int))

/-- Split a character list on every occurrence of one character, keeping
empty segments (as `String.prototype.split` does with a one-character
separator). -/
def splitOnChar (sepc : Char) : List Char → List (List Char)
  | [] => [[]]
  | c :: rest =>
    match splitOnChar sepc rest with
    | [] => [[]]
    | g :: gs => if c = sepc then [] :: g :: gs else (c :: g) :: gs

/-- Model of JavaScript `String.prototype.split` for the separators the
parser uses: the empty separator splits into single characters, a
one-character separator splits on each occurrence; longer separators (never
exercised in this development) fall back to `String.splitOn`. -/
def jsSplit (sep : String) (s : String) : List String :=
  match sep.data with
  | [] => s.data.map (fun c => String.singleton c)
  | [c] => (splitOnChar c s.data).map String.mk
  | _ => s.splitOn sep

/-- Scan for the first `=` in a character list, returning the characters
before it and after it (the backbone of `assignmentExp`/`parameterExp`:
split on the first `=`, the remainder may itself contain `=`). -/
def findEq : List Char → Option (List Char × List Char)
  | [] => none
  | c :: rest =>
    if c = '=' then some ([], rest)
    else (findEq rest).map (fun p => (c :: p.1, p.2))

/-- The regex `^([^=]+)=(.+)?` as a splitter: succeeds iff the string has a
first `=` preceded by at least one character; the value after `=` may be
empty (an undefined `(.+)?` group becomes `''` at the call sites). -/
def splitFirstEq (s : String) : Option (String × String) :=
  match findEq s.data with
  | some (nm, rest) =>
    if nm = [] then none else some (String.mk nm, String.mk rest)
  | none => none

/-- The regex `^--` test: at least two characters, both leading ones `-`. -/
def isLongOpt (arg : String) : Bool :=
  match arg.data with
  | c1 :: c2 :: _ => c1 == '-' && c2 == '-'
  | _ => false

/-- The regex `^-[^-]` test: a leading `-` followed by a non-`-`. -/
def isShortOpt (arg : String) : Bool :=
  match arg.data with
  | c1 :: c2 :: _ => c1 == '-' && c2 != '-'
  | _ => false

/-- The `ArgParserResult` Map subclass: entries plus the `frozen` guard flag
(`frozen` starts `false` and is set only by `freeze`). -/
structure ArgParserResult (V : Type) where
  entries : List (String × V)
  frozen : Bool
deriving Repr, DecidableEq

/-- `ArgParserResult.set`: throws a TypeError once frozen, else updates. -/
def ArgParserResult.set {V : Type} (m : ArgParserResult V) (k : String)
    (v : V) : Except ParseError (ArgParserResult V) :=
  if m.frozen then .error (.typeError "you cannot modify option values")
  else .ok { m with entries := setPairG m.entries k v }

/-- `ArgParserResult.delete`: throws a TypeError once frozen, else removes
the key. -/
def ArgParserResult.delete {V : Type} (m : ArgParserResult V) (k : String) :
    Except ParseError (ArgParserResult V) :=
  if m.frozen then .error (.typeError "you cannot delete parsed options")
  else .ok { m with entries := m.entries.filter (fun p => p.1 != k) }

/-- `ArgParserResult.clear`: throws a TypeError once frozen, else empties
the container. -/
def ArgParserResult.clear {V : Type} (m : ArgParserResult V) :
    Except ParseError (ArgParserResult V) :=
  if m.frozen then .error (.typeError "you cannot delete parsed options")
  else .ok { m with entries := [] }

/-- `ArgParserResult.freeze`: sets the guard flag. -/
def ArgParserResult.freeze {V : Type} (m : ArgParserResult V) :
    ArgParserResult V :=
  { m with frozen := true }

/-- `validateEntry` (utils.ts) on a well-typed entry: every per-type field
check passes by construction of `ConfigEntry` (a present text default is a
string, a present int default is an integer, a present separator is a
string, an alias target is a string, and the tag is drawn from the closed
set), so each branch of the source switch returns without error. -/
def validateEntry (opt : String) (entry : ConfigEntry) :
    Except ParseError Unit :=
  match opt, entry with
  | _, .flag => .ok ()
  | _, .count => .ok ()
  | _, .text _ => .ok ()
  | _, .int _ => .ok ()
  | _, .list _ => .ok ()
  | _, .alias _ => .ok ()

/-- First pass of `validateEntries`: run `validateEntry` on every entry in
order. -/
def validateAll : Schema → Except ParseError Unit
  | [] => .ok ()
  | (n, e) :: rest =>
    match validateEntry n e with
    | .error err => .error err
    | .ok () => validateAll rest

/-- The alias pairs collected during the first pass of `validateEntries`,
in entry order. -/
def collectAliases : Schema → List (String × String)
  | [] => []
  | (n, ConfigEntry.alias t) :: rest => (n, t) :: collectAliases rest
  | _ :: rest => collectAliases rest

/-- Second pass of `validateEntries`: each alias target must be a key of
the schema, else a dangling-target error naming the alias and target. -/
def checkAliases (cfg : Schema) : List (String × String) →
    Except ParseError Unit
  | [] => .ok ()
  | (n, t) :: rest =>
    if hasKey cfg t then checkAliases cfg rest
    else .error (.danglingTarget n t)

/-- `validateEntries` (utils.ts): per-entry validation, then the
alias-target existence pass. -/
def validateEntries (cfg : Schema) : Except ParseError Unit :=
  match validateAll cfg with
  | .error err => .error err
  | .ok () => checkAliases cfg (collectAliases cfg)

/-- The `ArgParser` constructor: `this.configs = configs` and nothing else —
it performs no validation and cannot fail. -/
def ArgParser.construct (configs : Schema) : Except ParseError Schema :=
  .ok configs

/-- The name/value extraction of `parseLongOption`: split the token after
the leading `--` on its first `=` (value `none` when no `=` is present, the
empty string when `=` ends the token — an undefined regex group becomes
`''`), falling back to the whole remainder as the name. -/
def longNameValue (arg : String) : String × Option String :=
  match splitFirstEq (String.mk (arg.data.drop 2)) with
  | some (n, v) => (n, some v)
  | none => (String.mk (arg.data.drop 2), none)

/-- The type dispatch of `parseLongOption` on the extracted name and value:
look the name up in the schema (the JS TypeError from reading `.type` of an
absent entry is `lookupFailed`) and resolve per entry type.  In the alias
branches for text and int targets the source tests
`Object.hasOwn(entry, 'default')` on the alias entry itself, which never
carries a `default` field, so those default branches are unreachable and
the model goes straight to the error. -/
def dispatchLong (cfg : Schema) (name : String) (value : Option String) :
    Except ParseError (String × OptionValue) :=
  match lookupEntry cfg name with
  | none => .error (.lookupFailed name)
  | some .flag => .ok (name, .bool true)
  | some (.text d) =>
    match value with
    | some v => .ok (name, .str v)
    | none =>
      match d with
      | some dv => .ok (name, .str dv)
      | none => .error (.nullArg name none)
  | some (.int d) =>
    match value with
    | some v =>
      if v = "" then
        match d with
        | some dv => .ok (name, .num dv)
        | none => .error (.nullInt name none)
      else
        match jsNumber v with
        | some k => .ok (name, .num k)
        | none => .error (.invalidInt v)
    | none =>
      match d with
      | some dv => .ok (name, .num dv)
      | none => .error (.nullInt name none)
  | some .count =>
    match value with
    | some v =>
      match jsNumber v with
      | some k => .ok (name, .num k)
      | none => .error (.invalidInt v)
    | none => .ok (name, .num 1)
  | some (.list sep) =>
    match value with
    | some v =>
      if v = "" then .ok (name, .list [])
      else .ok (name, .list (jsSplit (sep.getD ",") v))
    | none => .error (.nullArg name none)
  | some (.alias target) =>
    match lookupEntry cfg target with
    | none => .error (.lookupFailed target)
    | some .flag => .ok (target, .bool true)
    | some (.text _) =>
      match value with
      | some v => .ok (target, .str v)
      | none => .error (.nullArg name (some target))
    | some (.int _) =>
      match value with
      | some v =>
        if v = "" then .error (.nullInt name (some target))
        else
          match jsNumber v with
          | some k => .ok (target, .num k)
          | none => .error (.invalidInt v)
      | none => .error (.nullInt name (some target))
    | some .count =>
      match value with
      | some v =>
        match jsNumber v with
        | some k => .ok (target, .num k)
        | none => .error (.invalidInt v)
      | none => .ok (target, .num 1)
    | some (.list tsep) =>
      match value with
      | some v =>
        if v = "" then .ok (target, .list [])
        else .ok (target, .list (jsSplit (tsep.getD ",") v))
      | none => .error (.nullArg name (some target))
    | some (.alias _) => .error (.unsupportedType "alias")

/-- `ArgParser.parseLongOption`: extract the name and value from the token,
then dispatch on the schema entry's type. -/
def parseLongOption (cfg : Schema) (arg : String) :
    Except ParseError (String × OptionValue) :=
  dispatchLong cfg (longNameValue arg).1 (longNameValue arg).2

/-- One name-to-value record accumulated while walking a short cluster
(the `pairs` object of `parseShortOption`). -/
abbrev Pairs := List (String × OptionValue)

/-- The numeric value currently stored under a key (`options.get(name) as
number ?? 0`): the number when present, `0` otherwise. -/
def numAt (opts : List (String × OptionValue)) (k : String) : Int :=
  match getPairG opts k with
  | some (.num n) => n
  | _ => 0

/-- The sequence currently stored under a key (`options.get(name) as
string[] ?? []`): the list when present, `[]` otherwise. -/
def listAt (opts : List (String × OptionValue)) (k : String) : List String :=
  match getPairG opts k with
  | some (.list xs) => xs
  | _ => []

/-- The action of one character of a short cluster (`c`, with `others` the
characters after it and `nextArg` the lookahead `argList[i+1] ?? null`):
either continue the walk with updated pairs (flags and counts), or finish
the whole cluster with a (lookahead-consumed, pairs) result, or throw.
One-character names are looked up in the schema; value-taking types take
the rest of the cluster when non-empty (`i < n - 1`), else a default, else
the lookahead, else throw; aliases re-dispatch against the target entry
(the text/int default checks here are on the target entry, matching the
source short path) and store under the target name. -/
def shortStep (cfg : Schema) (c : Char) (others : List Char)
    (nextArg : Option String) (pairs : Pairs) :
    Except ParseError (Pairs ⊕ (Bool × Pairs)) :=
  match lookupEntry cfg (String.singleton c) with
  | none => .error (.lookupFailed (String.singleton c))
  | some .flag => .ok (.inl (setPairG pairs (String.singleton c) (.bool true)))
  | some (.text d) =>
    if others ≠ [] then
      .ok (.inr (false,
        setPairG pairs (String.singleton c) (.str (String.mk others))))
    else
      match d with
      | some dv =>
        .ok (.inr (false, setPairG pairs (String.singleton c) (.str dv)))
      | none =>
        match nextArg with
        | some v =>
          .ok (.inr (true, setPairG pairs (String.singleton c) (.str v)))
        | none => .error (.nullArg (String.singleton c) none)
  | some (.int d) =>
    if others ≠ [] then
      match jsNumber (String.mk others) with
      | some k =>
        .ok (.inr (false, setPairG pairs (String.singleton c) (.num k)))
      | none => .error (.invalidInt (String.mk others))
    else
      match d with
      | some dv =>
        .ok (.inr (false, setPairG pairs (String.singleton c) (.num dv)))
      | none =>
        match nextArg with
        | some v =>
          match jsNumber v with
          | some k =>
            .ok (.inr (true, setPairG pairs (String.singleton c) (.num k)))
          | none => .error (.invalidInt v)
        | none => .error (.nullInt (String.singleton c) none)
  | some .count =>
    .ok (.inl (setPairG pairs (String.singleton c)
      (.num (numAt pairs (String.singleton c) + 1))))
  | some (.list sep) =>
    if others ≠ [] then
      .ok (.inr (false, setPairG pairs (String.singleton c)
        (.list (jsSplit (sep.getD ",") (String.mk others)))))
    else
      match nextArg with
      | some v =>
        if v = "" then
          .ok (.inr (true, setPairG pairs (String.singleton c) (.list [])))
        else
          .ok (.inr (true, setPairG pairs (String.singleton c)
            (.list (jsSplit (sep.getD ",") v))))
      | none => .error (.nullArg (String.singleton c) none)
  | some (.alias target) =>
    match lookupEntry cfg target with
    | none => .error (.lookupFailed target)
    | some .flag => .ok (.inl (setPairG pairs target (.bool true)))
    | some (.text td) =>
      if others ≠ [] then
        .ok (.inr (false, setPairG pairs target (.str (String.mk others))))
      else
        match td with
        | some dv => .ok (.inr (false, setPairG pairs target (.str dv)))
        | none =>
          match nextArg with
          | some v => .ok (.inr (true, setPairG pairs target (.str v)))
          | none => .error (.nullArg (String.singleton c) (some target))
    | some (.int td) =>
      if others ≠ [] then
        match jsNumber (String.mk others) with
        | some k => .ok (.inr (false, setPairG pairs target (.num k)))
        | none => .error (.invalidInt (String.mk others))
      else
        match td with
        | some dv => .ok (.inr (false, setPairG pairs target (.num dv)))
        | none =>
          match nextArg with
          | some v =>
            match jsNumber v with
            | some k => .ok (.inr (true, setPairG pairs target (.num k)))
            | none => .error (.invalidInt v)
          | none => .error (.nullInt (String.singleton c) (some target))
    | some .count =>
      .ok (.inl (setPairG pairs target (.num (numAt pairs target + 1))))
    | some (.list tsep) =>
      if others ≠ [] then
        .ok (.inr (false, setPairG pairs target
          (.list (jsSplit (tsep.getD ",") (String.mk others)))))
      else
        match nextArg with
        | some v =>
          if v = "" then .ok (.inr (true, setPairG pairs target (.list [])))
          else
            .ok (.inr (true, setPairG pairs target
              (.list (jsSplit (tsep.getD ",") v))))
        | none => .error (.nullArg (String.singleton c) (some target))
    | some (.alias _) => .error (.unsupportedType "alias")

/-- The character walk of `ArgParser.parseShortOption`, on the cluster
characters after the leading `-`: run `shortStep` on each character in
turn; a continue outcome walks on, a finish outcome ends the cluster; a
cluster that runs out of characters reports no lookahead consumption. -/
def parseShortChars (cfg : Schema) (nextArg : Option String) :
    List Char → Pairs → Except ParseError (Bool × Pairs)
  | [], pairs => .ok (false, pairs)
  | c :: others, pairs =>
    match shortStep cfg c others nextArg pairs with
    | .error e => .error e
    | .ok (.inl pairs2) => parseShortChars cfg nextArg others pairs2
    | .ok (.inr r) => .ok r

/-- `ArgParser.parseShortOption` on the whole `-...` token. -/
def parseShortOption (cfg : Schema) (arg : String) (nextArg : Option String) :
    Except ParseError (Bool × Pairs) :=
  parseShortChars cfg nextArg (arg.data.drop 1) []

/-- The per-token accumulation into the options container (the
`configs[name].type` dispatch at the top of the parse loop): `count` adds
to the previous numeric value, `list` concatenates onto the previous
sequence, every other type overwrites. -/
def mergeOption (cfg : Schema) (opts : List (String × OptionValue))
    (name : String) (value : OptionValue) :
    Except ParseError (List (String × OptionValue)) :=
  match lookupEntry cfg name with
  | none => .error (.lookupFailed name)
  | some .count =>
    let oldV : Int :=
      match getPairG opts name with
      | some (.num k) => k
      | _ => 0
    let newV : Int :=
      match value with
      | .num k => k
      | _ => 0
    .ok (setPairG opts name (.num (oldV + newV)))
  | some (.list _) =>
    let oldV : List String :=
      match getPairG opts name with
      | some (.list xs) => xs
      | _ => []
    let newV : List String :=
      match value with
      | .list xs => xs
      | _ => []
    .ok (setPairG opts name (.list (oldV ++ newV)))
  | some _ => .ok (setPairG opts name value)

/-- Accumulate every pair returned by a short-option cluster, in insertion
order (`Object.entries(pairs)`). -/
def mergeOptions (cfg : Schema) (opts : List (String × OptionValue)) :
    Pairs → Except ParseError (List (String × OptionValue))
  | [] => .ok opts
  | (n, v) :: rest =>
    match mergeOption cfg opts n v with
    | .error e => .error e
    | .ok opts' => mergeOptions cfg opts' rest

/-- The three accumulators of one `parse` call while the token loop runs
(the containers are unfrozen throughout the loop, so every internal `set`
succeeds and is modelled as the plain update). -/
structure LoopState where
  options : List (String × OptionValue)
  parameters : List (String × String)
  operands : List String
deriving Repr, DecidableEq

/-- One iteration of the token classification loop for a token that is not
the `--` switch and not in operand mode: long options, short clusters
(with one lookahead token), `name=value` parameters, and operands, tested
in that order.  Returns the updated accumulators and whether the lookahead
token was consumed as a value. -/
def handleToken (cfg : Schema) (arg : String) (next : Option String)
    (st : LoopState) : Except ParseError (LoopState × Bool) :=
  if isLongOpt arg then
    match parseLongOption cfg arg with
    | .error e => .error e
    | .ok (name, value) =>
      match mergeOption cfg st.options name value with
      | .error e => .error e
      | .ok opts => .ok ({ st with options := opts }, false)
  else if isShortOpt arg then
    match parseShortOption cfg arg next with
    | .error e => .error e
    | .ok (shouldSkip, pairs) =>
      match mergeOptions cfg st.options pairs with
      | .error e => .error e
      | .ok opts => .ok ({ st with options := opts }, shouldSkip)
  else
    match splitFirstEq arg with
    | some (n, v) =>
      .ok ({ st with parameters := setPairG st.parameters n v }, false)
    | none => .ok ({ st with operands := st.operands ++ [arg] }, false)

/-- The token loop of `ArgParser.parse`: the first `--` (encountered while
not already in operand mode) switches to operand mode and is consumed; in
operand mode every token is appended verbatim to operands; every other
token is classified by `handleToken`, and a consumed lookahead token is
skipped on the next iteration (`i += 1`). -/
def parseLoop (cfg : Schema) : List String → Bool → LoopState →
    Except ParseError LoopState
  | [], _, st => .ok st
  | arg :: rest, stopParsing, st =>
    if !stopParsing && (arg == "--") then parseLoop cfg rest true st
    else if stopParsing then
      parseLoop cfg rest stopParsing
        { st with operands := st.operands ++ [arg] }
    else
      match handleToken cfg arg rest.head? st with
      | .error e => .error e
      | .ok (st', shouldSkip) =>
        if shouldSkip then
          match rest with
          | [] => parseLoop cfg [] stopParsing st'
          | _ :: rest2 => parseLoop cfg rest2 stopParsing st'
        else parseLoop cfg rest stopParsing st'

/-- The result triple handed back by `parse`.  `parse` builds the three
containers, never calls `freeze` on any of them, and returns them, so both
map containers come back with `frozen = false`. -/
structure ArgParseOutput where
  options : ArgParserResult OptionValue
  parameters : ArgParserResult String
  operands : List String
deriving Repr, DecidableEq

/-- `ArgParser.parse`: run the token loop from empty containers and return
the result triple.  The source returns the containers without invoking
`ArgParserResult.freeze`, hence `frozen := false` on both maps. -/
def ArgParser.parse (cfg : Schema) (argList : List String) :
    Except ParseError ArgParseOutput :=
  match parseLoop cfg argList false ⟨[], [], []⟩ with
  | .error e => .error e
  | .ok st =>
    .ok { options := ⟨st.options, false⟩,
          parameters := ⟨st.parameters, false⟩,
          operands := st.operands }

/-- A `parse` method call on a parser instance whose state is the stored
schema: the source method reads `this.configs` and assigns no instance
field, so the instance state after the call is the unchanged schema. -/
def ArgParser.parseCall (cfg : Schema) (argList : List String) :
    Except ParseError (ArgParseOutput × Schema) :=
  match ArgParser.parse cfg argList with
  | .error e => .error e
  | .ok r => .ok (r, cfg)

/-- A token that is one occurrence of the list-typed option `tag` under the
schema `\x7btag: \x7btype: list\x7d\x7d`, producing the sequence `xs`: either a long
option token resolving to `("tag", xs)`, or a short cluster token resolving
inline (no lookahead consumed) to exactly `("tag", xs)`. -/
def tagListOccurrence (t : String) (xs : List String) : Prop :=
  (isLongOpt t = true ∧ t ≠ "--" ∧
    parseLongOption [("tag", ConfigEntry.list none)] t
      = .ok ("tag", OptionValue.list xs)) ∨
  (isShortOpt t = true ∧
    ∀ na, parseShortOption [("tag", ConfigEntry.list none)] t na
      = .ok (false, [("tag", OptionValue.list xs)]))

lemma getPairG_set_same {V : Type} (ps : List (String × V)) (k : String)
    (v : V) : getPairG (setPairG ps k v) k = some v := by
  induction ps with
  | nil => simp [setPairG, getPairG, List.find?]
  | cons p rest ih =>
    rcases p with ⟨k', v'⟩
    by_cases h : k' = k
    · subst h
      simp [setPairG, getPairG, List.find?]
    · simp only [setPairG, getPairG, List.find?] at ih ⊢
      simp only [if_neg h]
      have hbe : (k' == k) = false := by simpa using h
      simpa [hbe] using ih

lemma setPairG_set_same {V : Type} (ps : List (String × V)) (k : String)
    (v w : V) : setPairG (setPairG ps k v) k w = setPairG ps k w := by
  induction ps with
  | nil => simp [setPairG]
  | cons p rest ih =>
    rcases p with ⟨k', v'⟩
    by_cases h : k' = k
    · subst h
      simp [setPairG]
    · simp [setPairG, h, ih]

lemma numAt_set (ps : List (String × OptionValue)) (k : String) (n : Int) :
    numAt (setPairG ps k (.num n)) k = n := by
  simp [numAt, getPairG_set_same]

lemma listAt_set (ps : List (String × OptionValue)) (k : String)
    (xs : List String) : listAt (setPairG ps k (.list xs)) k = xs := by
  simp [listAt, getPairG_set_same]

lemma string_data_inj {s t : String} (h : s.data = t.data) : s = t := by
  cases s
  cases t
  exact congrArg String.mk h

/-- A token passing the short-option test fails the long-option test and is
not the `--` separator. -/
lemma isShortOpt_facts (t : String) (h : isShortOpt t = true) :
    isLongOpt t = false ∧ t ≠ "--" := by
  unfold isShortOpt at h
  unfold isLongOpt
  rcases hd : t.data with _ | ⟨c1, _ | ⟨c2, rest⟩⟩ <;> rw [hd] at h
  · simp at h
  · simp at h
  · simp only [Bool.and_eq_true, beq_iff_eq, bne_iff_ne] at h
    obtain ⟨h1, h2⟩ := h
    refine ⟨by simp [h2], ?_⟩
    intro he
    rw [he] at hd
    rw [show ("--" : String).data = ['-', '-'] from rfl] at hd
    simp at hd
    exact h2 hd.2.1.symm

/-- Once the loop is in operand mode, every remaining token is appended
verbatim to the operands, in order, and nothing else changes. -/
lemma parseLoop_stop (cfg : Schema) (rest : List String) (st : LoopState) :
    parseLoop cfg rest true st
      = .ok { st with operands := st.operands ++ rest } := by
  induction rest generalizing st with
  | nil =>
    rw [show parseLoop cfg [] true st = .ok st from rfl]
    simp
  | cons a l ih =>
    rw [parseLoop, if_neg (by simp), if_pos rfl, ih]
    simp

lemma validateEntry_ok (opt : String) (e : ConfigEntry) :
    validateEntry opt e = .ok () := by
  cases e <;> rfl

lemma validateAll_ok (cfg : Schema) : validateAll cfg = .ok () := by
  induction cfg with
  | nil => rfl
  | cons p rest ih =>
    rcases p with ⟨n, e⟩
    simp [validateAll, validateEntry_ok, ih]

lemma validateEntries_eq (cfg : Schema) :
    validateEntries cfg = checkAliases cfg (collectAliases cfg) := by
  unfold validateEntries
  rw [validateAll_ok]

lemma mem_collectAliases (cfg : Schema) (a t : String) :
    (a, t) ∈ collectAliases cfg ↔ (a, ConfigEntry.alias t) ∈ cfg := by
  induction cfg with
  | nil => simp [collectAliases]
  | cons p rest ih =>
    rcases p with ⟨n, e⟩
    cases e <;> simp [collectAliases, ih, Prod.mk.injEq]

lemma checkAliases_ok (cfg : Schema) (l : List (String × String))
    (h : ∀ p ∈ l, hasKey cfg p.2 = true) : checkAliases cfg l = .ok () := by
  induction l with
  | nil => rfl
  | cons p rest ih =>
    rcases p with ⟨n, t⟩
    have ht := h (n, t) (by simp)
    simp only [checkAliases, ht, if_true]
    exact ih (fun q hq => h q (by simp [hq]))

lemma checkAliases_err (cfg : Schema) (l : List (String × String))
    (a t : String) (hmem : (a, t) ∈ l) (hkey : hasKey cfg t = false) :
    ∃ a2 t2, checkAliases cfg l = .error (.danglingTarget a2 t2) ∧
      (a2, t2) ∈ l ∧ hasKey cfg t2 = false := by
  induction l with
  | nil => simp at hmem
  | cons p rest ih =>
    rcases p with ⟨n, th⟩
    by_cases hk : hasKey cfg th = true
    · have hmem' : (a, t) ∈ rest := by
        rcases List.mem_cons.mp hmem with he | hr
        · exfalso
          obtain ⟨rfl, rfl⟩ := Prod.mk.injEq .. ▸ he
          rw [hkey] at hk
          exact Bool.false_ne_true hk
        · exact hr
      obtain ⟨a2, t2, h1, h2, h3⟩ := ih hmem'
      exact ⟨a2, t2, by simp [checkAliases, hk, h1], by simp [h2], h3⟩
    · refine ⟨n, th, ?_, by simp, by simpa using hk⟩
      simp [checkAliases, hk]

/-- Under the schema `\x7bv: count\x7d`, every `-v` or `--v` token adds one to
the accumulated numeric value of `v`. -/
lemma countLoop (args : List String)
    (h : ∀ a ∈ args, a = "-v" ∨ a = "--v") (st : LoopState) :
    parseLoop [("v", ConfigEntry.count)] args false st =
      .ok { st with options :=
        (if args = [] then st.options
         else setPairG st.options "v"
          (.num (numAt st.options "v" + (args.length : Int)))) } := by
  induction args generalizing st with
  | nil =>
    rw [show parseLoop [("v", ConfigEntry.count)] [] false st = .ok st
      from rfl]
    simp
  | cons a rest ih =>
    have ha := h a (List.mem_cons_self a rest)
    have hrest : ∀ b ∈ rest, b = "-v" ∨ b = "--v" :=
      fun b hb => h b (List.mem_cons_of_mem a hb)
    have hh : handleToken [("v", ConfigEntry.count)] a rest.head? st
        = .ok ({ st with
                 options := setPairG st.options "v"
                              (.num (numAt st.options "v" + 1)) },
          false) := by
      rcases ha with rfl | rfl <;> rfl
    have hne : ¬((!false && (a == "--")) = true) := by
      rcases ha with rfl | rfl <;> decide
    rw [parseLoop, if_neg hne, if_neg (by simp), hh]
    show parseLoop [("v", ConfigEntry.count)] rest false
        { st with
          options := setPairG st.options "v"
                       (.num (numAt st.options "v" + 1)) } = _
    rw [ih hrest]
    rcases eq_or_ne rest [] with rfl | hr
    · simp
    · rw [if_neg hr, if_neg (List.cons_ne_nil a rest)]
      rw [numAt_set, setPairG_set_same]
      have harith : numAt st.options "v" + 1 + (rest.length : Int)
          = numAt st.options "v" + (((a :: rest).length : Nat) : Int) := by
        simp
        ring
      rw [harith]

/-- Under the schema `\x7btag: \x7btype: list\x7d\x7d`, a run of tokens that are each
one occurrence of `tag` concatenates the produced sequences onto the
accumulated value of `tag`, in encounter order. -/
lemma listLoop (toks : List String) (xss : List (List String))
    (h : List.Forall₂ tagListOccurrence toks xss) (st : LoopState) :
    parseLoop [("tag", ConfigEntry.list none)] toks false st =
      .ok { st with options :=
        (if toks = [] then st.options
         else setPairG st.options "tag"
          (.list (listAt st.options "tag" ++ xss.flatten))) } := by
  induction h generalizing st with
  | nil =>
    rw [show parseLoop [("tag", ConfigEntry.list none)] [] false st = .ok st
      from rfl]
    simp
  | @cons t xs toks2 xss2 hP htail ih =>
    have hne : t ≠ "--" := by
      rcases hP with ⟨_, hne, _⟩ | ⟨hs, _⟩
      · exact hne
      · exact (isShortOpt_facts t hs).2
    have hh : handleToken [("tag", ConfigEntry.list none)] t toks2.head? st
        = .ok ({ st with
                 options := setPairG st.options "tag"
                   (.list (listAt st.options "tag" ++ xs)) },
          false) := by
      rcases hP with ⟨hlong, _, hparse⟩ | ⟨hshort, hpso⟩
      · unfold handleToken
        rw [if_pos hlong, hparse]
        rfl
      · unfold handleToken
        rw [if_neg (by simp [(isShortOpt_facts t hshort).1]),
          if_pos hshort, hpso toks2.head?]
        rfl
    rw [parseLoop, if_neg (by simp [hne]), if_neg (by simp), hh]
    show parseLoop [("tag", ConfigEntry.list none)] toks2 false
        { st with
          options := setPairG st.options "tag"
            (.list (listAt st.options "tag" ++ xs)) } = _
    rw [ih]
    rcases eq_or_ne toks2 [] with rfl | hr
    · cases htail
      simp
    · rw [if_neg hr, if_neg (List.cons_ne_nil t toks2)]
      rw [listAt_set, setPairG_set_same]
      simp [List.append_assoc]

/-- C1: the claim says any set/delete/clear on a returned Options or
Parameters container fails with an immutability error because the
containers are frozen on return.  In the source, `parse` returns the
containers without ever calling `freeze`, so they come back with
`frozen = false` and every mutation succeeds; the guard that would throw
exists on the class but only fires after an explicit `freeze`, as the
last conjunct records. -/
theorem c1_parse_returns_unfrozen_containers :
    ArgParser.parse [] [] = .ok ⟨⟨[], false⟩, ⟨[], false⟩, []⟩ ∧
    (ArgParserResult.mk ([] : List (String × OptionValue)) false).set "x"
        (.bool true)
      = .ok ⟨[("x", OptionValue.bool true)], false⟩ ∧
    (ArgParserResult.mk [("k", OptionValue.str "s")] false).delete "k"
      = .ok ⟨[], false⟩ ∧
    (ArgParserResult.mk [("k", "v")] false).clear = .ok ⟨[], false⟩ ∧
    ((ArgParserResult.mk ([] : List (String × OptionValue)) false).freeze).set
        "x" (.bool true)
      = .error (.typeError "you cannot modify option values") :=
  ⟨rfl, rfl, rfl, rfl, rfl⟩

/-- C2 counterexample: the claim says schema errors are raised at parser
construction time, but the `ArgParser` constructor only stores the schema:
constructing a parser from a schema with a dangling alias target succeeds,
even though `validateEntries` rejects that same schema. -/
theorem c2_construct_accepts_invalid_schema :
    ArgParser.construct [("a", ConfigEntry.alias "missing")]
      = .ok [("a", ConfigEntry.alias "missing")] ∧
    validateEntries [("a", ConfigEntry.alias "missing")]
      = .error (.danglingTarget "a" "missing") :=
  ⟨rfl, rfl⟩

/-- C2 amended: the parser constructor performs no validation and accepts
every schema; the schema errors are raised by `validateEntries` when it is
invoked (which the constructor never does). -/
theorem c2_validation_lives_in_validateEntries :
    (∀ cfg : Schema, ArgParser.construct cfg = .ok cfg) ∧
    validateEntries [("a", ConfigEntry.alias "missing")]
      = .error (.danglingTarget "a" "missing") :=
  ⟨fun _ => rfl, rfl⟩

/-- C3: with schema a: alias of t, t: text with default d, the long form
`--a` raises a missing-argument error naming both names instead of storing
the default under t (the long alias path tests the alias entry, not the
target entry, for a default), while the short form `-a` does store the
default under t; the same happens for an int target; value-passing and the
no-default error naming both names behave as claimed. -/
theorem c3_long_alias_ignores_target_default :
    ArgParser.parse
        [("a", ConfigEntry.alias "t"), ("t", ConfigEntry.text (some "d"))]
        ["--a"]
      = .error (.nullArg "a" (some "t")) ∧
    ArgParser.parse
        [("a", ConfigEntry.alias "t"), ("t", ConfigEntry.text (some "d"))]
        ["-a"]
      = .ok ⟨⟨[("t", OptionValue.str "d")], false⟩, ⟨[], false⟩, []⟩ ∧
    ArgParser.parse
        [("a", ConfigEntry.alias "t"), ("t", ConfigEntry.int (some 7))]
        ["--a"]
      = .error (.nullInt "a" (some "t")) ∧
    ArgParser.parse
        [("a", ConfigEntry.alias "t"), ("t", ConfigEntry.text none)]
        ["--a=x"]
      = .ok ⟨⟨[("t", OptionValue.str "x")], false⟩, ⟨[], false⟩, []⟩ ∧
    ArgParser.parse
        [("a", ConfigEntry.alias "t"), ("t", ConfigEntry.text none)]
        ["--a"]
      = .error (.nullArg "a" (some "t")) :=
  ⟨rfl, rfl, rfl, rfl, rfl⟩

/-- C4 counterexample: the claim quantifies over every argument list
containing a literal `--`; but a value-taking short option consumes a
following `--` as its lookahead value, so here the `--` never switches the
parser into operand mode, `k=v` after it becomes a parameter, and the
operands stay empty. -/
theorem c4_lookahead_consumes_separator :
    ArgParser.parse [("o", ConfigEntry.text none)] ["-o", "--", "k=v"]
      = .ok ⟨⟨[("o", OptionValue.str "--")], false⟩,
          ⟨[("k", "v")], false⟩, []⟩ :=
  rfl

/-- C4 amended: whenever the token loop, not yet in operand mode, reaches a
literal `--` token (one not consumed as a preceding short option's
lookahead value), every remaining token - later literal `--` tokens
included - is appended to the operands in input order and none is
classified as an option or parameter; the concrete run shows a later `--`
kept as an ordinary operand. -/
theorem c4_rest_are_operands :
    (∀ (cfg : Schema) (rest : List String) (st : LoopState),
      parseLoop cfg ("--" :: rest) false st
        = .ok { st with operands := st.operands ++ rest }) ∧
    ArgParser.parse [] ["x", "--", "-c", "--", "k=v"]
      = .ok ⟨⟨[], false⟩, ⟨[], false⟩, ["x", "-c", "--", "k=v"]⟩ := by
  constructor
  · intro cfg rest st
    rw [parseLoop, if_pos (by decide)]
    exact parseLoop_stop cfg rest st
  · rfl

/-- C5: for a value-taking (text, int or list) character in a short
cluster, with `pairs` the accumulator reached at that character: with
characters remaining in the cluster, the remainder is the value (numeric
values validate and convert, list values split on the entry separator,
comma by default) and the lookahead is not consumed; at the cluster's end
with a default, the default is used without consuming the lookahead (list
entries carry no default field, so no such case arises for them); at the
end with no default and a lookahead present, the lookahead is consumed as
the value (an empty-string lookahead for a list becomes the empty
sequence); at the end with no default and no lookahead, a
missing-argument error is raised, the numeric variant for int; and the
two concrete runs from the spec hold, including the outer loop skipping
the consumed lookahead token. -/
theorem c5_short_value_taking :
    (∀ (cfg : Schema) (c : Char) (d : Option String) (others : List Char)
        (next : Option String) (pairs : Pairs),
      lookupEntry cfg (String.singleton c) = some (ConfigEntry.text d) →
      (others ≠ [] →
        parseShortChars cfg next (c :: others) pairs
          = .ok (false, setPairG pairs (String.singleton c)
              (.str (String.mk others)))) ∧
      (∀ dv, d = some dv →
        parseShortChars cfg next [c] pairs
          = .ok (false, setPairG pairs (String.singleton c) (.str dv))) ∧
      (∀ v, d = none → next = some v →
        parseShortChars cfg next [c] pairs
          = .ok (true, setPairG pairs (String.singleton c) (.str v))) ∧
      (d = none → next = none →
        parseShortChars cfg next [c] pairs
          = .error (.nullArg (String.singleton c) none))) ∧
    (∀ (cfg : Schema) (c : Char) (d : Option Int) (others : List Char)
        (next : Option String) (pairs : Pairs),
      lookupEntry cfg (String.singleton c) = some (ConfigEntry.int d) →
      (∀ k, others ≠ [] → jsNumber (String.mk others) = some k →
        parseShortChars cfg next (c :: others) pairs
          = .ok (false, setPairG pairs (String.singleton c) (.num k))) ∧
      (∀ dv, d = some dv →
        parseShortChars cfg next [c] pairs
          = .ok (false, setPairG pairs (String.singleton c) (.num dv))) ∧
      (∀ v k, d = none → next = some v → jsNumber v = some k →
        parseShortChars cfg next [c] pairs
          = .ok (true, setPairG pairs (String.singleton c) (.num k))) ∧
      (d = none → next = none →
        parseShortChars cfg next [c] pairs
          = .error (.nullInt (String.singleton c) none))) ∧
    (∀ (cfg : Schema) (c : Char) (sep : Option String) (others : List Char)
        (next : Option String) (pairs : Pairs),
      lookupEntry cfg (String.singleton c) = some (ConfigEntry.list sep) →
      (others ≠ [] →
        parseShortChars cfg next (c :: others) pairs
          = .ok (false, setPairG pairs (String.singleton c)
              (.list (jsSplit (sep.getD ",") (String.mk others))))) ∧
      (next = some "" →
        parseShortChars cfg next [c] pairs
          = .ok (true, setPairG pairs (String.singleton c) (.list []))) ∧
      (∀ v, next = some v → v ≠ "" →
        parseShortChars cfg next [c] pairs
          = .ok (true, setPairG pairs (String.singleton c)
              (.list (jsSplit (sep.getD ",") v)))) ∧
      (next = none →
        parseShortChars cfg next [c] pairs
          = .error (.nullArg (String.singleton c) none))) ∧
    ArgParser.parse [("o", ConfigEntry.text none)] ["-ofile.txt"]
      = .ok ⟨⟨[("o", OptionValue.str "file.txt")], false⟩, ⟨[], false⟩, []⟩ ∧
    ArgParser.parse [("o", ConfigEntry.text none)] ["-o", "file.txt"]
      = .ok ⟨⟨[("o", OptionValue.str "file.txt")], false⟩, ⟨[], false⟩,
          []⟩ := by
  refine ⟨?_, ?_, ?_, rfl, rfl⟩
  · intro cfg c d others next pairs h
    refine ⟨?_, ?_, ?_, ?_⟩
    · intro ho
      have hs : shortStep cfg c others next pairs
          = .ok (.inr (false, setPairG pairs (String.singleton c)
              (.str (String.mk others)))) := by
        unfold shortStep
        simp only [h]
        rw [if_pos ho]
      rw [parseShortChars, hs]
    · intro dv hdv
      subst hdv
      have hs : shortStep cfg c [] next pairs
          = .ok (.inr (false, setPairG pairs (String.singleton c)
              (.str dv))) := by
        unfold shortStep
        simp only [h]
        rw [if_neg (fun hx => hx rfl)]
      rw [parseShortChars, hs]
    · intro v hd hv
      subst hd
      subst hv
      have hs : shortStep cfg c [] (some v) pairs
          = .ok (.inr (true, setPairG pairs (String.singleton c)
              (.str v))) := by
        unfold shortStep
        simp only [h]
        rw [if_neg (fun hx => hx rfl)]
      rw [parseShortChars, hs]
    · intro hd hv
      subst hd
      subst hv
      have hs : shortStep cfg c [] none pairs
          = .error (.nullArg (String.singleton c) none) := by
        unfold shortStep
        simp only [h]
        rw [if_neg (fun hx => hx rfl)]
      rw [parseShortChars, hs]
  · intro cfg c d others next pairs h
    refine ⟨?_, ?_, ?_, ?_⟩
    · intro k ho hk
      have hs : shortStep cfg c others next pairs
          = .ok (.inr (false, setPairG pairs (String.singleton c)
              (.num k))) := by
        unfold shortStep
        simp only [h]
        rw [if_pos ho]
        simp only [hk]
      rw [parseShortChars, hs]
    · intro dv hdv
      subst hdv
      have hs : shortStep cfg c [] next pairs
          = .ok (.inr (false, setPairG pairs (String.singleton c)
              (.num dv))) := by
        unfold shortStep
        simp only [h]
        rw [if_neg (fun hx => hx rfl)]
      rw [parseShortChars, hs]
    · intro v k hd hv hk
      subst hd
      subst hv
      have hs : shortStep cfg c [] (some v) pairs
          = .ok (.inr (true, setPairG pairs (String.singleton c)
              (.num k))) := by
        unfold shortStep
        simp only [h]
        rw [if_neg (fun hx => hx rfl)]
        simp only [hk]
      rw [parseShortChars, hs]
    · intro hd hv
      subst hd
      subst hv
      have hs : shortStep cfg c [] none pairs
          = .error (.nullInt (String.singleton c) none) := by
        unfold shortStep
        simp only [h]
        rw [if_neg (fun hx => hx rfl)]
      rw [parseShortChars, hs]
  · intro cfg c sep others next pairs h
    refine ⟨?_, ?_, ?_, ?_⟩
    · intro ho
      have hs : shortStep cfg c others next pairs
          = .ok (.inr (false, setPairG pairs (String.singleton c)
              (.list (jsSplit (sep.getD ",") (String.mk others))))) := by
        unfold shortStep
        simp only [h]
        rw [if_pos ho]
      rw [parseShortChars, hs]
    · intro hv
      subst hv
      have hs : shortStep cfg c [] (some "") pairs
          = .ok (.inr (true, setPairG pairs (String.singleton c)
              (.list []))) := by
        unfold shortStep
        simp only [h]
        rw [if_neg (fun hx => hx rfl)]
        rw [if_pos trivial]
      rw [parseShortChars, hs]
    · intro v hv hvne
      subst hv
      have hs : shortStep cfg c [] (some v) pairs
          = .ok (.inr (true, setPairG pairs (String.singleton c)
              (.list (jsSplit (sep.getD ",") v)))) := by
        unfold shortStep
        simp only [h]
        rw [if_neg (fun hx => hx rfl)]
        rw [if_neg hvne]
      rw [parseShortChars, hs]
    · intro hv
      subst hv
      have hs : shortStep cfg c [] none pairs
          = .error (.nullArg (String.singleton c) none) := by
        unfold shortStep
        simp only [h]
        rw [if_neg (fun hx => hx rfl)]
      rw [parseShortChars, hs]

/-- C5 witness: under schema o: text with no default, the cluster `-o` at
its end with lookahead `file.txt` consumes the lookahead as the value;
under schema n: int with no default, `-n` consumes the numeric lookahead
`7`; under schema l: list, the cluster `-la,b` takes the inline remainder
split on the default comma without consuming any lookahead. -/
theorem c5_short_value_taking_witness :
    parseShortChars [("o", ConfigEntry.text none)] (some "file.txt")
        ['o'] []
      = .ok (true, [("o", OptionValue.str "file.txt")]) ∧
    parseShortChars [("n", ConfigEntry.int none)] (some "7") ['n'] []
      = .ok (true, [("n", OptionValue.num 7)]) ∧
    parseShortChars [("l", ConfigEntry.list none)] none
        ['l', 'a', ',', 'b'] []
      = .ok (false, [("l", OptionValue.list ["a", "b"])]) :=
  ⟨(c5_short_value_taking.1 [("o", ConfigEntry.text none)] 'o' none []
      (some "file.txt") [] rfl).2.2.1 "file.txt" rfl rfl,
    (c5_short_value_taking.2.1 [("n", ConfigEntry.int none)] 'n' none []
      (some "7") [] rfl).2.2.1 "7" 7 rfl rfl rfl,
    (c5_short_value_taking.2.2.1 [("l", ConfigEntry.list none)] 'l' none
      ['a', ',', 'b'] none [] rfl).1 (by decide)⟩

/-- C6: under schema v: count, a count option sums across all of its
occurrences within one parse call: any non-empty run of `-v` / `--v`
tokens yields v mapped to the number of occurrences (each contributing 1),
and an explicit numeric value contributes that value (`--v=5` then `-v`
yields 6). -/
theorem c6_count_accumulates :
    (∀ args : List String, args ≠ [] →
      (∀ a ∈ args, a = "-v" ∨ a = "--v") →
      ArgParser.parse [("v", ConfigEntry.count)] args
        = .ok ⟨⟨[("v", OptionValue.num (args.length : Int))], false⟩,
            ⟨[], false⟩, []⟩) ∧
    ArgParser.parse [("v", ConfigEntry.count)] ["--v=5", "-v"]
      = .ok ⟨⟨[("v", OptionValue.num 6)], false⟩, ⟨[], false⟩, []⟩ := by
  constructor
  · intro args hne h
    unfold ArgParser.parse
    rw [countLoop args h ⟨[], [], []⟩, if_neg hne]
    rw [show numAt ([] : List (String × OptionValue)) "v" = 0 from rfl]
    rw [zero_add]
    rfl
  · rfl

/-- C6 witness: the spec's concrete run, three `-v` tokens yield v = 3. -/
theorem c6_count_accumulates_witness :
    ArgParser.parse [("v", ConfigEntry.count)] ["-v", "-v", "-v"]
      = .ok ⟨⟨[("v", OptionValue.num 3)], false⟩, ⟨[], false⟩, []⟩ := by
  have h := c6_count_accumulates.1 ["-v", "-v", "-v"] (by decide) (by decide)
  simpa using h

/-- C7: under schema tag: list, a list option concatenates the sequences
produced by all of its occurrences in encounter order: for any non-empty
run of tokens that are each one occurrence of tag (long or inline short
form) producing the respective sequence, the result maps tag to the
concatenation; and the spec's concrete run `--tag=a,b` then `--tag=c`
yields tag = [a, b, c]. -/
theorem c7_list_concatenates :
    (∀ (toks : List String) (xss : List (List String)), toks ≠ [] →
      List.Forall₂ tagListOccurrence toks xss →
      ArgParser.parse [("tag", ConfigEntry.list none)] toks
        = .ok ⟨⟨[("tag", OptionValue.list xss.flatten)], false⟩,
            ⟨[], false⟩, []⟩) ∧
    ArgParser.parse [("tag", ConfigEntry.list none)] ["--tag=a,b", "--tag=c"]
      = .ok ⟨⟨[("tag", OptionValue.list ["a", "b", "c"])], false⟩,
          ⟨[], false⟩, []⟩ := by
  constructor
  · intro toks xss hne h
    unfold ArgParser.parse
    rw [listLoop toks xss h ⟨[], [], []⟩, if_neg hne]
    rfl
  · rfl

/-- C7 witness: two long occurrences, one splitting on the default comma
separator, concatenate in encounter order. -/
theorem c7_list_concatenates_witness :
    ArgParser.parse [("tag", ConfigEntry.list none)] ["--tag=x,y", "--tag=z"]
      = .ok ⟨⟨[("tag", OptionValue.list ["x", "y", "z"])], false⟩,
          ⟨[], false⟩, []⟩ := by
  have h := c7_list_concatenates.1 ["--tag=x,y", "--tag=z"]
    [["x", "y"], ["z"]] (by decide)
    (List.Forall₂.cons (Or.inl ⟨rfl, by decide, rfl⟩)
      (List.Forall₂.cons (Or.inl ⟨rfl, by decide, rfl⟩) List.Forall₂.nil))
  simpa using h

/-- C8: for every schema in which each alias entry's target is a key of
the schema, `validateEntries` returns without error (and has no other
effect, being a pure function into Unit); and for every schema containing
an alias entry whose target is not a key, `validateEntries` fails with a
dangling-target error naming a dangling alias of that schema and its
missing target. -/
theorem c8_validate_ok_unless_dangling (cfg : Schema) :
    ((∀ a t, (a, ConfigEntry.alias t) ∈ cfg → hasKey cfg t = true) →
      validateEntries cfg = .ok ()) ∧
    (∀ a t, (a, ConfigEntry.alias t) ∈ cfg → hasKey cfg t = false →
      ∃ a2 t2, validateEntries cfg = .error (.danglingTarget a2 t2) ∧
        (a2, ConfigEntry.alias t2) ∈ cfg ∧ hasKey cfg t2 = false) := by
  constructor
  · intro hyp
    rw [validateEntries_eq]
    apply checkAliases_ok
    intro p hp
    rcases p with ⟨a, t⟩
    exact hyp a t ((mem_collectAliases cfg a t).mp hp)
  · intro a t hmem hkey
    obtain ⟨a2, t2, h1, h2, h3⟩ :=
      checkAliases_err cfg (collectAliases cfg) a t
        ((mem_collectAliases cfg a t).mpr hmem) hkey
    exact ⟨a2, t2, by rw [validateEntries_eq]; exact h1,
      (mem_collectAliases cfg a2 t2).mp h2, h3⟩

/-- C8 witness: a valid schema (alias o targeting the present entry
output) validates without error, and the schema with alias a targeting the
absent name missing fails with the dangling-target error. -/
theorem c8_validate_ok_unless_dangling_witness :
    validateEntries
        [("o", ConfigEntry.alias "output"), ("output", ConfigEntry.text none)]
      = .ok () ∧
    (∃ a2 t2, validateEntries [("a", ConfigEntry.alias "missing")]
        = .error (.danglingTarget a2 t2) ∧
      (a2, ConfigEntry.alias t2) ∈ [("a", ConfigEntry.alias "missing")] ∧
      hasKey [("a", ConfigEntry.alias "missing")] t2 = false) :=
  ⟨(c8_validate_ok_unless_dangling _).1
      (by
        intro a t hmem
        simp only [List.mem_cons, List.not_mem_nil, or_false,
          Prod.mk.injEq] at hmem
        rcases hmem with ⟨rfl, ht⟩ | ⟨rfl, ht⟩
        · cases ht
          rfl
        · cases ht),
    (c8_validate_ok_unless_dangling _).2 "a" "missing" (by simp) rfl⟩

/-- C9: a parse call neither fails differently nor yields different
contents when repeated: if a call on a parser instance (whose only state
is the stored schema, which the call does not modify) succeeds, the
second call on the resulting instance state succeeds with a result of
identical options, parameters and operands contents, and the instance
state is still the original schema. -/
theorem c9_repeat_parse_same_contents (cfg : Schema) (args : List String)
    (r : ArgParseOutput) (s : Schema)
    (h : ArgParser.parseCall cfg args = .ok (r, s)) :
    s = cfg ∧ ∃ r2, ArgParser.parseCall s args = .ok (r2, s) ∧
      r2.options.entries = r.options.entries ∧
      r2.parameters.entries = r.parameters.entries ∧
      r2.operands = r.operands := by
  unfold ArgParser.parseCall at h ⊢
  cases hp : ArgParser.parse cfg args with
  | error e =>
    rw [hp] at h
    cases h
  | ok r0 =>
    rw [hp] at h
    injection h with h1
    cases h1
    refine ⟨rfl, r, ?_, rfl, rfl, rfl⟩
    rw [hp]

/-- C9 witness: parsing `-v` twice with the same one-entry count schema
yields the same contents both times and leaves the schema unchanged. -/
theorem c9_repeat_parse_same_contents_witness :
    ([("v", ConfigEntry.count)] : Schema) = [("v", ConfigEntry.count)] ∧
    ∃ r2, ArgParser.parseCall [("v", ConfigEntry.count)] ["-v"]
        = .ok (r2, [("v", ConfigEntry.count)]) ∧
      r2.options.entries = [("v", OptionValue.num 1)] ∧
      r2.parameters.entries = ([] : List (String × String)) ∧
      r2.operands = ([] : List String) :=
  c9_repeat_parse_same_contents [("v", ConfigEntry.count)] ["-v"]
    ⟨⟨[("v", OptionValue.num 1)], false⟩, ⟨[], false⟩, []⟩
    [("v", ConfigEntry.count)] rfl

/-- C10: with schema n: int and no default, parsing `-n` followed by the
empty-string token succeeds with n = 0, because the empty-string lookahead
is taken as the value, passes numeric validation (Number of the empty
string is 0, not NaN), and is consumed (it does not reappear as an
operand); whereas the long form `--n=` raises the missing-numeric-argument
error. -/
theorem c10_empty_lookahead_int :
    ArgParser.parse [("n", ConfigEntry.int none)] ["-n", ""]
      = .ok ⟨⟨[("n", OptionValue.num 0)], false⟩, ⟨[], false⟩, []⟩ ∧
    jsNumber "" = some 0 ∧
    ArgParser.parse [("n", ConfigEntry.int none)] ["--n="]
      = .error (.nullInt "n" none) :=
  ⟨rfl, rfl, rfl⟩
